import Mathlib

/-!
Shallow embedding of `src/gradio_mcp_server.py`, the single source file of the
filemaker_mcp_hosted repository: a Gradio/MCP server that authenticates to a
FileMaker Data API backend with a cached bearer token, fetches a JSON tool
list, translates each tool descriptor into a generated callable, assembles a
Gradio interface (fallback / single form / tabbed) and binds one of a fixed
list of ports.

Modelling conventions:
 * Python values that flow through the server (JSON payloads, script
   parameters, cached tokens, Python None) are `JValue`; Python None is
   `JValue.null` and Python truthiness is `pyTruthy`.
 * HTTP calls made through the `requests` library are modelled by their
   observable outcome `HttpOutcome`: a timeout, another transport error, or a
   response with a status code and an optional parsed JSON body (`none` means
   `.json()` raises a JSONDecodeError).
 * Exceptions are reified: the body of each Python `try:` block is a
   `Except PyExc` value and the surrounding handlers are total functions on
   `PyExc`, mirroring the source's `except` clauses clause by clause; the
   result of a whole function that can in principle propagate an exception is
   an `ExecResult`.
 * `json.loads` / `json.dumps` of the Python standard library are external
   collaborators and are passed in as functions (`loads`, `dumps`).
 * `time.time()` is passed in as the integer `now` (seconds).
-/

/-- JSON-like values: the Python values handled by the server. Python None is
`JValue.null`. -/
inductive JValue : Type where
  | null : JValue
  | bool : Bool → JValue
  | num : Int → JValue
  | str : String → JValue
  | arr : List JValue → JValue
  | obj : List (String × JValue) → JValue

/-- Python truthiness (`if x:`) for the values of the model. -/
def pyTruthy : JValue → Bool
  | .null => false
  | .bool b => b
  | .num n => n != 0
  | .str s => s != ""
  | .arr xs => !xs.isEmpty
  | .obj fs => !fs.isEmpty

/-- Key lookup in a JSON object's field list (Python dicts read from JSON have
unique keys; the first binding wins). -/
def jLookup : List (String × JValue) → String → Option JValue
  | [], _ => none
  | (k, v) :: rest, key => if k = key then some v else jLookup rest key

/-- The exception classes the source code raises or handles: `Timeout` and
other `RequestException`s from `requests`, `KeyError`, `json.JSONDecodeError`,
`TypeError`, `AttributeError`, `NameError`. All are subclasses of Python's
`Exception`, so a bare `except Exception` handler catches every one. -/
inductive PyExc : Type where
  | timeout : PyExc
  | requestError : String → PyExc
  | keyError : String → PyExc
  | jsonDecodeError : PyExc
  | typeError : PyExc
  | attributeError : PyExc
  | nameError : String → PyExc

/-- Observable outcome of one HTTP call made through `requests`. For a
`response`, `body` is the JSON document `.json()` yields, or `none` when the
response text is not JSON (then `.json()` raises a JSONDecodeError). -/
inductive HttpOutcome : Type where
  | timeout : HttpOutcome
  | transportError : String → HttpOutcome
  | response : Nat → Option JValue → HttpOutcome

/-- Result of running a Python function: a returned value, or an exception
propagating past the function's boundary. -/
inductive ExecResult (α : Type) : Type where
  | ret : α → ExecResult α
  | raises : PyExc → ExecResult α

/-- Python subscript `v[key]` with a string key: a field of a dict, a
`KeyError` for a missing field, and a `TypeError` on every non-dict value. -/
def pyIndex : JValue → String → Except PyExc JValue
  | .obj fs, key =>
      match jLookup fs key with
      | some v => .ok v
      | none => .error (.keyError key)
  | _, _ => .error .typeError

/-- Substring test, for Python's `needle in haystack` on strings. -/
def substrMem (needle hay : String) : Bool :=
  decide (2 ≤ (hay.splitOn needle).length)

/-- Python's `key in v`: key membership for dicts, element equality for lists,
substring test for strings, and a `TypeError` on non-container values. -/
def pyContains : JValue → String → Except PyExc Bool
  | .obj fs, key => .ok (jLookup fs key).isSome
  | .arr xs, key =>
      .ok (xs.any fun v => match v with | .str s => s == key | _ => false)
  | .str s, key => .ok (substrMem key s)
  | _, _ => .error .typeError

/-- The module-level token cache `_fm_token_cache`: a token value (initially
Python None) and an expiry timestamp (initially 0). The lock field is the
subject of the concurrency model further below. -/
structure TokenCache : Type where
  token : JValue
  expires : Int

/-- The cached-token test of get_fm_token, lines 57-58 of the source:
`_fm_token_cache["token"] and current_time < _fm_token_cache["expires"]`. -/
def cacheHit (cache : TokenCache) (now : Int) : Bool :=
  pyTruthy cache.token && decide (now < cache.expires)

/-- `response.raise_for_status()` followed by `response.json()`: a timeout
raises `Timeout`, another transport failure raises a `RequestException`, a
status of 400 or more raises an `HTTPError` (a `RequestException`), and a
non-JSON body raises a `JSONDecodeError`. -/
def httpBodyJson : HttpOutcome → Except PyExc JValue
  | .timeout => .error .timeout
  | .transportError msg => .error (.requestError msg)
  | .response status body =>
      if 400 ≤ status then .error (.requestError "HTTPError")
      else
        match body with
        | some j => .ok j
        | none => .error .jsonDecodeError

/-- The try-block of get_fm_token (source lines 66-82): POST to the session
endpoint, `raise_for_status`, then `response.json()['response']['token']`. -/
def getFmTokenBody (auth : HttpOutcome) : Except PyExc JValue :=
  match httpBodyJson auth with
  | .error e => .error e
  | .ok j =>
      match pyIndex j "response" with
      | .error e => .error e
      | .ok r => pyIndex r "token"

/-- get_fm_token (source lines 52-94). Returns the token value, the cache
state after the call, and the number of authentication calls performed (0 on
a cache hit, 1 otherwise). On a cache miss the new token is stored with
expiry `now + 14 * 60`; every handled exception yields Python None. -/
def get_fm_token (cache : TokenCache) (now : Int) (auth : HttpOutcome) :
    JValue × TokenCache × Nat :=
  if cacheHit cache now then (cache.token, cache, 0)
  else
    match getFmTokenBody auth with
    | .ok tok => (tok, ⟨tok, now + 14 * 60⟩, 1)
    | .error _ => (.null, cache, 1)

/-- get_fm_token with its exception behaviour explicit: the except clauses of
lines 83-94 (`Timeout`, `RequestException`, `KeyError`/`JSONDecodeError`, and
the final bare `except Exception`) each return None, so no arm re-raises. -/
def getFmTokenExec (cache : TokenCache) (now : Int) (auth : HttpOutcome) :
    ExecResult (JValue × TokenCache × Nat) :=
  if cacheHit cache now then .ret (cache.token, cache, 0)
  else
    match getFmTokenBody auth with
    | .ok tok => .ret (tok, ⟨tok, now + 14 * 60⟩, 1)
    | .error .timeout => .ret (.null, cache, 1)
    | .error (.requestError _) => .ret (.null, cache, 1)
    | .error (.keyError _) => .ret (.null, cache, 1)
    | .error .jsonDecodeError => .ret (.null, cache, 1)
    | .error _ => .ret (.null, cache, 1)

/-- C2: every execution of get_fm_token returns (never raises past its
boundary), and on any transport failure, timeout or malformed session-creation
response reached on a cache miss it returns Python None. -/
theorem get_fm_token_never_raises (cache : TokenCache) (now : Int)
    (auth : HttpOutcome) :
    getFmTokenExec cache now auth = .ret (get_fm_token cache now auth)
    ∧ (cacheHit cache now = false →
        ∀ e : PyExc, getFmTokenBody auth = .error e →
          get_fm_token cache now auth = (.null, cache, 1)) := by
  constructor
  · unfold getFmTokenExec get_fm_token
    by_cases h : cacheHit cache now
    · simp [h]
    · simp [h]
      cases hb : getFmTokenBody auth with
      | ok tok => rfl
      | error e => cases e <;> rfl
  · intro hmiss e he
    unfold get_fm_token
    simp [hmiss, he]

/-- Witness for C2 at a concrete input: empty cache, timed-out
authentication call; the function returns None. -/
theorem get_fm_token_never_raises_witness :
    get_fm_token ⟨.null, 0⟩ 5 .timeout = (.null, ⟨.null, 0⟩, 1) :=
  (get_fm_token_never_raises ⟨.null, 0⟩ 5 .timeout).2 rfl .timeout rfl

/-- C3: the cache contract of get_fm_token: with a truthy cached token whose
stored expiry lies after the current time, the cached token is returned and no
authentication call is made; otherwise exactly one authentication call is
made and, on success, the new token is stored with expiry now + 14 minutes
(840 seconds) and returned. -/
theorem get_fm_token_cache_contract (cache : TokenCache) (now : Int)
    (auth : HttpOutcome) :
    (cacheHit cache now = true →
        get_fm_token cache now auth = (cache.token, cache, 0))
    ∧ (cacheHit cache now = false →
        (get_fm_token cache now auth).2.2 = 1
        ∧ ∀ tok : JValue, getFmTokenBody auth = .ok tok →
            get_fm_token cache now auth = (tok, ⟨tok, now + 14 * 60⟩, 1)) := by
  constructor
  · intro h
    unfold get_fm_token
    simp [h]
  · intro h
    constructor
    · unfold get_fm_token
      simp only [h, Bool.false_eq_true, if_false]
      cases hb : getFmTokenBody auth <;> rfl
    · intro tok htok
      unfold get_fm_token
      simp [h, htok]

/-- Witness for C3 at concrete inputs: a valid cached token is returned with
zero authentication calls, and an expired (empty) cache triggers one
successful authentication that is stored with expiry now + 840. -/
theorem get_fm_token_cache_contract_witness :
    get_fm_token ⟨.str "tok", 100⟩ 50 .timeout
      = (.str "tok", ⟨.str "tok", 100⟩, 0)
    ∧ get_fm_token ⟨.null, 0⟩ 50
        (.response 200 (some (.obj [("response", .obj [("token", .str "newtok")])])))
      = (.str "newtok", ⟨.str "newtok", 50 + 14 * 60⟩, 1) :=
  ⟨(get_fm_token_cache_contract ⟨.str "tok", 100⟩ 50 .timeout).1 rfl,
   ((get_fm_token_cache_contract ⟨.null, 0⟩ 50
      (.response 200 (some (.obj [("response", .obj [("token", .str "newtok")])])))).2
      rfl).2 (.str "newtok") rfl⟩

/-- The structured error payload the script-invocation path returns on every
failure. -/
def errObj (msg : String) : JValue := .obj [("error", .str msg)]

/-- The try-block of call_filemaker_script (source lines 100-129): obtain a
token (early error payload when falsy), encode `params` as one JSON query
value when truthy (early error payload when `json.dumps` raises), GET the
script endpoint, `raise_for_status`, take `response.json()['response']`, and
if that envelope contains `scriptResult` try to parse it as JSON, falling
back to the raw value (the inner try of lines 125-128 catches both
`JSONDecodeError` and `TypeError`, so a non-string `scriptResult` is also
returned unchanged). Without `scriptResult` the envelope itself is returned. -/
def callFMBody (params : JValue) (cache : TokenCache) (now : Int)
    (auth : HttpOutcome) (dumps : JValue → Except String String)
    (resp : HttpOutcome) (loads : String → Option JValue) :
    Except PyExc JValue :=
  if !(pyTruthy (get_fm_token cache now auth).1) then
    .ok (errObj "Could not authenticate with FileMaker")
  else
    match (if pyTruthy params then dumps params else .ok "") with
    | .error emsg => .ok (errObj ("Invalid script parameters: " ++ emsg))
    | .ok _ =>
      match httpBodyJson resp with
      | .error e => .error e
      | .ok j =>
        match pyIndex j "response" with
        | .error e => .error e
        | .ok result =>
          match pyContains result "scriptResult" with
          | .error e => .error e
          | .ok false => .ok result
          | .ok true =>
            match pyIndex result "scriptResult" with
            | .error e => .error e
            | .ok sr =>
              match sr with
              | .str s =>
                match loads s with
                | some v => .ok v
                | none => .ok sr
              | _ => .ok sr

/-- call_filemaker_script (source lines 97-142): the try-block above with the
except clauses of lines 131-142, each of which converts its exception class
into a structured error payload. -/
def call_filemaker_script (scriptName : String) (params : JValue)
    (cache : TokenCache) (now : Int) (auth : HttpOutcome)
    (dumps : JValue → Except String String) (resp : HttpOutcome)
    (loads : String → Option JValue) : JValue :=
  match callFMBody params cache now auth dumps resp loads with
  | .ok v => v
  | .error .timeout => errObj ("Script " ++ scriptName ++ " timed out")
  | .error (.requestError msg) => errObj ("Script execution failed: " ++ msg)
  | .error (.keyError key) => errObj ("Invalid response format: " ++ key)
  | .error .jsonDecodeError => errObj "Invalid response format: JSONDecodeError"
  | .error _ => errObj "Unexpected error"

/-- call_filemaker_script with its exception behaviour explicit: the handlers
(`Timeout`, `RequestException`, `KeyError`/`JSONDecodeError`, bare
`except Exception`) all return an error payload; none re-raises. -/
def callFMExec (scriptName : String) (params : JValue) (cache : TokenCache)
    (now : Int) (auth : HttpOutcome) (dumps : JValue → Except String String)
    (resp : HttpOutcome) (loads : String → Option JValue) : ExecResult JValue :=
  match callFMBody params cache now auth dumps resp loads with
  | .ok v => .ret v
  | .error .timeout => .ret (errObj ("Script " ++ scriptName ++ " timed out"))
  | .error (.requestError msg) => .ret (errObj ("Script execution failed: " ++ msg))
  | .error (.keyError key) => .ret (errObj ("Invalid response format: " ++ key))
  | .error .jsonDecodeError => .ret (errObj "Invalid response format: JSONDecodeError")
  | .error _ => .ret (errObj "Unexpected error")

/-- C4: call_filemaker_script never raises past its boundary; every exception
and every early failure (authentication, parameter encoding) yields a
structured payload of the form obj [error, reason]; and when the response
envelope carries a `scriptResult` string, its JSON parse is returned when it
succeeds and the raw text unchanged when it fails. -/
theorem call_filemaker_script_contract (scriptName : String) (params : JValue)
    (cache : TokenCache) (now : Int) (auth : HttpOutcome)
    (dumps : JValue → Except String String) (resp : HttpOutcome)
    (loads : String → Option JValue) :
    callFMExec scriptName params cache now auth dumps resp loads
      = .ret (call_filemaker_script scriptName params cache now auth dumps resp loads)
    ∧ (∀ e : PyExc, callFMBody params cache now auth dumps resp loads = .error e →
        ∃ msg : String,
          call_filemaker_script scriptName params cache now auth dumps resp loads
            = errObj msg)
    ∧ (pyTruthy (get_fm_token cache now auth).1 = false →
        call_filemaker_script scriptName params cache now auth dumps resp loads
          = errObj "Could not authenticate with FileMaker")
    ∧ (∀ emsg : String, pyTruthy (get_fm_token cache now auth).1 = true →
        pyTruthy params = true → dumps params = .error emsg →
        call_filemaker_script scriptName params cache now auth dumps resp loads
          = errObj ("Invalid script parameters: " ++ emsg))
    ∧ (∀ (status : Nat) (flds efs : List (String × JValue)) (s : String),
        pyTruthy (get_fm_token cache now auth).1 = true →
        (pyTruthy params = true → ∃ q : String, dumps params = .ok q) →
        resp = .response status (some (.obj flds)) →
        status < 400 →
        jLookup flds "response" = some (.obj efs) →
        jLookup efs "scriptResult" = some (.str s) →
        ((∀ v : JValue, loads s = some v →
            call_filemaker_script scriptName params cache now auth dumps resp loads
              = v)
         ∧ (loads s = none →
            call_filemaker_script scriptName params cache now auth dumps resp loads
              = .str s))) := by
  refine ⟨?_, ?_, ?_, ?_, ?_⟩
  · unfold callFMExec call_filemaker_script
    cases hb : callFMBody params cache now auth dumps resp loads with
    | ok v => rfl
    | error e => cases e <;> rfl
  · intro e he
    unfold call_filemaker_script
    rw [he]
    cases e <;> exact ⟨_, rfl⟩
  · intro hf
    unfold call_filemaker_script callFMBody
    simp [hf]
  · intro emsg ht hp hd
    unfold call_filemaker_script callFMBody
    simp [ht, hp, hd]
  · intro status flds efs s ht hdump hresp hstatus hresult hsr
    have hbody : callFMBody params cache now auth dumps resp loads =
        (match loads s with
         | some v => .ok v
         | none => .ok (.str s)) := by
      unfold callFMBody
      rw [hresp]
      simp only [ht, Bool.not_true, Bool.false_eq_true, if_false]
      cases hpp : pyTruthy params with
      | false =>
        simp [httpBodyJson, Nat.not_le.mpr hstatus, pyIndex, hresult, pyContains,
          hsr, Option.isSome]
      | true =>
        obtain ⟨q, hq⟩ := hdump hpp
        simp [hq, httpBodyJson, Nat.not_le.mpr hstatus, pyIndex, hresult, pyContains,
          hsr, Option.isSome]
    constructor
    · intro v hv
      unfold call_filemaker_script
      rw [hbody, hv]
    · intro hv
      unfold call_filemaker_script
      rw [hbody, hv]

/-- Witness for C4 at concrete inputs: a response whose scriptResult parses to
a JSON object is returned parsed, one that does not parse is returned as raw
text, and a timeout yields an error payload. -/
theorem call_filemaker_script_contract_witness :
    call_filemaker_script "MyScript" .null ⟨.str "t", 10⟩ 5 .timeout
        (fun _ => .ok "x")
        (.response 200 (some (.obj [("response",
          .obj [("scriptResult", .str "[1]")])])))
        (fun s => if s = "[1]" then some (.arr [.num 1]) else none)
      = .arr [.num 1]
    ∧ call_filemaker_script "MyScript" .null ⟨.str "t", 10⟩ 5 .timeout
        (fun _ => .ok "x")
        (.response 200 (some (.obj [("response",
          .obj [("scriptResult", .str "plain text")])])))
        (fun _ => none)
      = .str "plain text"
    ∧ call_filemaker_script "MyScript" .null ⟨.str "t", 10⟩ 5 .timeout
        (fun _ => .ok "x") .timeout (fun _ => none)
      = errObj "Script MyScript timed out" :=
  ⟨((call_filemaker_script_contract "MyScript" .null ⟨.str "t", 10⟩ 5 .timeout
      (fun _ => .ok "x")
      (.response 200 (some (.obj [("response",
        .obj [("scriptResult", .str "[1]")])])))
      (fun s => if s = "[1]" then some (.arr [.num 1]) else none)).2.2.2.2
      200 _ _ "[1]" rfl (fun _ => ⟨"x", rfl⟩) rfl (by omega) rfl rfl).1
      (.arr [.num 1]) rfl,
   ((call_filemaker_script_contract "MyScript" .null ⟨.str "t", 10⟩ 5 .timeout
      (fun _ => .ok "x")
      (.response 200 (some (.obj [("response",
        .obj [("scriptResult", .str "plain text")])])))
      (fun _ => none)).2.2.2.2
      200 _ _ "plain text" rfl (fun _ => ⟨"x", rfl⟩) rfl (by omega) rfl rfl).2 rfl,
   by
    have h := (call_filemaker_script_contract "MyScript" .null ⟨.str "t", 10⟩ 5
      .timeout (fun _ => .ok "x") .timeout (fun _ => none)).1
    simp only [callFMExec] at h
    rfl⟩

/-- Whether a value is a JSON/Python string. -/
def jIsStr : JValue → Bool
  | .str _ => true
  | _ => false

/-- Whether a value is a JSON/Python list. -/
def jIsArr : JValue → Bool
  | .arr _ => true
  | _ => false

/-- Python's `x is None` test. -/
def jIsNull : JValue → Bool
  | .null => true
  | _ => false

/-- The tool-name logging line of get_tools_from_filemaker (source lines
181-182): `tool.get('function', {}).get('name', 'unknown')` for every dict in
the list, then a string join. It raises (an `AttributeError`, or a `TypeError`
at the join) exactly when some dict element has a non-dict `function` value or
a non-string `name` value; this predicate is true when the line runs without
an exception. -/
def toolLogOk (xs : List JValue) : Bool :=
  xs.all fun t =>
    match t with
    | .obj tfs =>
        match (jLookup tfs "function").getD (.obj []) with
        | .obj ffs =>
            match (jLookup ffs "name").getD (.str "unknown") with
            | .str _ => true
            | _ => false
        | _ => false
    | _ => true

/-- The try-block of get_tools_from_filemaker (source lines 148-183): obtain a
token (early empty list when falsy), GET the fixed GetToolList script,
`raise_for_status`, take `response.json()['response']`, return the empty list
when it has no `scriptResult`, parse `scriptResult` as JSON returning the
empty list when that fails (the inner try of lines 168-172 also catches the
`TypeError` of a non-string value), take `.get('tools', [])` of the parsed
object (an `AttributeError` on a non-dict), return the empty list when that
is not a list, run the logging line, and return the list. -/
def getToolsBody (cache : TokenCache) (now : Int) (auth : HttpOutcome)
    (resp : HttpOutcome) (loads : String → Option JValue) :
    Except PyExc (List JValue) :=
  if !(pyTruthy (get_fm_token cache now auth).1) then .ok []
  else
    match httpBodyJson resp with
    | .error e => .error e
    | .ok j =>
      match pyIndex j "response" with
      | .error e => .error e
      | .ok result =>
        match pyContains result "scriptResult" with
        | .error e => .error e
        | .ok false => .ok []
        | .ok true =>
          match pyIndex result "scriptResult" with
          | .error e => .error e
          | .ok sr =>
            match sr with
            | .str s =>
              match loads s with
              | none => .ok []
              | some parsed =>
                match parsed with
                | .obj pfs =>
                  match (jLookup pfs "tools").getD (.arr []) with
                  | .arr xs =>
                      if toolLogOk xs then .ok xs else .error .attributeError
                  | _ => .ok []
                | _ => .error .attributeError
            | _ => .ok []

/-- get_tools_from_filemaker (source lines 145-196): the try-block above with
the except clauses of lines 185-196, each of which returns the empty list. -/
def get_tools_from_filemaker (cache : TokenCache) (now : Int)
    (auth : HttpOutcome) (resp : HttpOutcome)
    (loads : String → Option JValue) : List JValue :=
  match getToolsBody cache now auth resp loads with
  | .ok xs => xs
  | .error _ => []

/-- get_tools_from_filemaker with its exception behaviour explicit: the
handlers (`Timeout`, `RequestException`, `KeyError`/`JSONDecodeError`, bare
`except Exception`) all return the empty list; none re-raises. -/
def getToolsExec (cache : TokenCache) (now : Int) (auth : HttpOutcome)
    (resp : HttpOutcome) (loads : String → Option JValue) :
    ExecResult (List JValue) :=
  match getToolsBody cache now auth resp loads with
  | .ok xs => .ret xs
  | .error .timeout => .ret []
  | .error (.requestError _) => .ret []
  | .error (.keyError _) => .ret []
  | .error .jsonDecodeError => .ret []
  | .error _ => .ret []

/-- C5: get_tools_from_filemaker never raises; every raised exception
(transport failure, timeout, HTTP error status, non-JSON body, missing
envelope field, non-dict parsed result) yields the empty list, as do an
authentication failure, an envelope without `scriptResult`, a `scriptResult`
that does not parse as JSON or is not a string, a parsed object without a
`tools` field, and a `tools` value that is not a list. -/
theorem get_tools_structural_deviations (cache : TokenCache) (now : Int)
    (auth : HttpOutcome) (resp : HttpOutcome)
    (loads : String → Option JValue) :
    getToolsExec cache now auth resp loads
      = .ret (get_tools_from_filemaker cache now auth resp loads)
    ∧ (∀ e : PyExc, getToolsBody cache now auth resp loads = .error e →
        get_tools_from_filemaker cache now auth resp loads = [])
    ∧ (pyTruthy (get_fm_token cache now auth).1 = false →
        get_tools_from_filemaker cache now auth resp loads = [])
    ∧ (∀ (status : Nat) (flds efs : List (String × JValue)),
        pyTruthy (get_fm_token cache now auth).1 = true →
        resp = .response status (some (.obj flds)) →
        status < 400 →
        jLookup flds "response" = some (.obj efs) →
        ((jLookup efs "scriptResult" = none →
            get_tools_from_filemaker cache now auth resp loads = [])
         ∧ (∀ sr : JValue, jLookup efs "scriptResult" = some sr →
              jIsStr sr = false →
              get_tools_from_filemaker cache now auth resp loads = [])
         ∧ (∀ s : String, jLookup efs "scriptResult" = some (.str s) →
              loads s = none →
              get_tools_from_filemaker cache now auth resp loads = [])
         ∧ (∀ (s : String) (pfs : List (String × JValue)),
              jLookup efs "scriptResult" = some (.str s) →
              loads s = some (.obj pfs) →
              jLookup pfs "tools" = none →
              get_tools_from_filemaker cache now auth resp loads = [])
         ∧ (∀ (s : String) (pfs : List (String × JValue)) (t : JValue),
              jLookup efs "scriptResult" = some (.str s) →
              loads s = some (.obj pfs) →
              jLookup pfs "tools" = some t →
              jIsArr t = false →
              get_tools_from_filemaker cache now auth resp loads = []))) := by
  refine ⟨?_, ?_, ?_, ?_⟩
  · unfold getToolsExec get_tools_from_filemaker
    cases hb : getToolsBody cache now auth resp loads with
    | ok xs => rfl
    | error e => cases e <;> rfl
  · intro e he
    unfold get_tools_from_filemaker
    rw [he]
  · intro hf
    unfold get_tools_from_filemaker getToolsBody
    simp [hf]
  · intro status flds efs ht hresp hstatus hresult
    refine ⟨?_, ?_, ?_, ?_, ?_⟩
    · intro hnone
      unfold get_tools_from_filemaker getToolsBody
      rw [hresp]
      simp [ht, httpBodyJson, Nat.not_le.mpr hstatus, pyIndex, hresult,
        pyContains, hnone]
    · intro sr hsr hstr
      unfold get_tools_from_filemaker getToolsBody
      rw [hresp]
      cases sr <;> simp_all [jIsStr, httpBodyJson, Nat.not_le.mpr hstatus,
        pyIndex, hresult, pyContains]
    · intro s hsr hloads
      unfold get_tools_from_filemaker getToolsBody
      rw [hresp]
      simp [ht, httpBodyJson, Nat.not_le.mpr hstatus, pyIndex, hresult,
        pyContains, hsr, hloads]
    · intro s pfs hsr hloads htools
      unfold get_tools_from_filemaker getToolsBody
      rw [hresp]
      simp [ht, httpBodyJson, Nat.not_le.mpr hstatus, pyIndex, hresult,
        pyContains, hsr, hloads, htools, toolLogOk]
    · intro s pfs t hsr hloads htools hnarr
      unfold get_tools_from_filemaker getToolsBody
      rw [hresp]
      cases t <;> simp_all [jIsArr, httpBodyJson, Nat.not_le.mpr hstatus,
        pyIndex, hresult, pyContains]

/-- Witness for C5 at concrete inputs: an authentication failure yields the
empty list, and so does an envelope whose parsed scriptResult lacks a `tools`
list. -/
theorem get_tools_structural_deviations_witness :
    get_tools_from_filemaker ⟨.null, 0⟩ 5 .timeout .timeout (fun _ => none) = []
    ∧ get_tools_from_filemaker ⟨.str "t", 10⟩ 5 .timeout
        (.response 200 (some (.obj [("response",
          .obj [("scriptResult", .str "emptyobj")])])))
        (fun s => if s = "emptyobj" then some (.obj []) else none) = [] :=
  ⟨(get_tools_structural_deviations ⟨.null, 0⟩ 5 .timeout .timeout
      (fun _ => none)).2.2.1 rfl,
   (((get_tools_structural_deviations ⟨.str "t", 10⟩ 5 .timeout
      (.response 200 (some (.obj [("response",
        .obj [("scriptResult", .str "emptyobj")])])))
      (fun s => if s = "emptyobj" then some (.obj []) else none)).2.2.2
      200 _ _ rfl rfl (by omega) rfl).2.2.2.1 "emptyobj" [] rfl rfl rfl)⟩

/-- First character of a Python identifier (ASCII model of
`str.isidentifier`; non-ASCII identifiers do not occur in the claims). -/
def isIdentStartChar (c : Char) : Bool := c.isAlpha || c = '_'

/-- Later character of a Python identifier. -/
def isIdentChar (c : Char) : Bool := c.isAlphanum || c = '_'

/-- Python `str.isidentifier` (ASCII model): nonempty, a letter or underscore
followed by letters, digits and underscores. Note that Python keywords pass
this test. -/
def isPyIdentifier (s : String) : Bool :=
  match s.data with
  | [] => false
  | c :: cs => isIdentStartChar c && cs.all isIdentChar

/-- The Python reserved keywords: `str.isidentifier` accepts them, but a
generated `def` using one as a function or parameter name is a syntax error,
so `exec` raises and the translator returns None. -/
def pyKeywords : List String :=
  ["False", "None", "True", "and", "as", "assert", "async", "await", "break",
   "class", "continue", "def", "del", "elif", "else", "except", "finally",
   "for", "from", "global", "if", "import", "in", "is", "lambda", "nonlocal",
   "not", "or", "pass", "raise", "return", "try", "while", "with", "yield"]

/-- Whether some of the names that appear in the generated source text is a
reserved keyword (making `exec` of the generated `def` fail). -/
def hasKeyword (names : List String) : Bool :=
  names.any fun n => pyKeywords.contains n

/-- `function.get('parameters', {})` (source line 217). -/
def parametersOf (ffs : List (String × JValue)) : JValue :=
  (jLookup ffs "parameters").getD (.obj [])

/-- `parameters.get('properties', {}) if isinstance(parameters, dict) else {}`
(source line 218). -/
def propertiesValueOf (ffs : List (String × JValue)) : JValue :=
  match parametersOf ffs with
  | .obj pfs => (jLookup pfs "properties").getD (.obj [])
  | _ => .obj []

/-- `parameters.get('required', []) if isinstance(parameters, dict) else []`
(source line 219). -/
def requiredValueOf (ffs : List (String × JValue)) : JValue :=
  match parametersOf ffs with
  | .obj pfs => (jLookup pfs "required").getD (.arr [])
  | _ => .arr []

/-- The signature-building loop of create_function (source lines 239-257):
skip properties whose info is not a dict or whose name is not an identifier;
the rest go to the required or the optional parameter list (in property
order) according to Python's `param_name in required`, whose evaluation on a
non-container `required` value raises. -/
def sigSplit (requiredV : JValue) :
    List (String × JValue) → Except PyExc (List String × List String)
  | [] => .ok ([], [])
  | (pname, pinfo) :: rest =>
      match pinfo with
      | .obj _ =>
          if isPyIdentifier pname then
            match pyContains requiredV pname with
            | .error e => .error e
            | .ok true =>
                match sigSplit requiredV rest with
                | .error e => .error e
                | .ok (req, opt) => .ok (pname :: req, opt)
            | .ok false =>
                match sigSplit requiredV rest with
                | .error e => .error e
                | .ok (req, opt) => .ok (req, pname :: opt)
          else sigSplit requiredV rest
      | _ => sigSplit requiredV rest

/-- The property keys for which the generated body holds a collection line
(source lines 280-283): every property key that is a valid identifier,
whatever its info value. -/
def collectNamesOf (props : List (String × JValue)) : List String :=
  (props.map Prod.fst).filter isPyIdentifier

/-- What the translator produces for one tool descriptor: the data the
generated callable closes over. The signature is the required parameters
(no default) followed by the optional ones (default None). -/
structure GeneratedFn : Type where
  name : String
  sigRequired : List String
  sigOptional : List String
  collectNames : List String
  description : JValue

/-- create_gradio_function (source lines 198-312): reject a non-dict
descriptor or one without a `function` dict; reject a missing, falsy,
non-string or non-identifier name; then build the generated function.
`exec` of the generated source is modelled structurally: it fails (yielding
None through the inner try of lines 225-300) exactly when the function name
or a collected parameter name is a reserved keyword, when the properties
value is not a dict (`.items()` raises an AttributeError), or when the
`in required` test raises. Descriptions are assumed not to contain
docstring-breaking character sequences; the generated body's own name
resolution, including the shadowing of a parameter named `params` by the
body's accumulator, is modelled by `collectArgs` below. -/
def create_gradio_function (td : JValue) : Option GeneratedFn :=
  match td with
  | .obj tfs =>
      match jLookup tfs "function" with
      | some (.obj ffs) =>
          match (jLookup ffs "name").getD .null with
          | .str s =>
              if isPyIdentifier s then
                match propertiesValueOf ffs with
                | .obj props =>
                    match sigSplit (requiredValueOf ffs) props with
                    | .error _ => none
                    | .ok (req, opt) =>
                        if hasKeyword (s :: collectNamesOf props) then none
                        else
                          some ⟨s, req, opt, collectNamesOf props,
                            (jLookup ffs "description").getD (.str "")⟩
                | _ => none
              else none
          | _ => none
      | some _ => none
      | none => none
  | _ => none

/-- Python dict assignment `d[k] = v`: replace the value at an existing key
in place, else append the binding. -/
def dictInsert {α : Type} (d : List (String × α)) (k : String) (v : α) :
    List (String × α) :=
  match d with
  | [] => [(k, v)]
  | (k0, v0) :: rest =>
      if k0 = k then (k, v) :: rest else (k0, v0) :: dictInsert rest k v

/-- A value stored in the generated body's `params` dict by one collection
line. Besides a parameter's argument value, the body's name resolution
(source lines 271-296) can store the `params` dict itself — the body's first
statement `params = ...` makes `params` a local that shadows any parameter or
property of that name, and a dict is never None — or an opaque Python object
read from the exec namespace or the builtins for a collected name that is
not a parameter. -/
inductive PBVal : Type where
  | arg : JValue → PBVal
  | selfDict : PBVal
  | pyObj : String → PBVal

/-- The collection lines of the generated body (source lines 277-283), run in
order on the accumulating `params` dict: `if p is not None: params['p'] = p`.
Name resolution follows Python scoping in the generated `def`:
 * `params` is a local reassigned before every collection line, so its line
   reads the accumulating dict itself — which passes `is not None` — whatever
   the parameter of that name, if any, was passed;
 * every other signature parameter reads its argument, inserted exactly when
   it is not None;
 * `result` is a local assigned only after the collection lines, so a
   collected name `result` that is not a parameter raises an
   UnboundLocalError (a NameError) when its line runs;
 * a remaining non-local name reads the exec namespace — which binds
   `call_filemaker_script` and the generated function under its own name —
   or a Python builtin: which further names resolve is the external
   parameter `resolvesGlobal`, every such object being not None; a name that
   resolves nowhere raises a NameError. -/
def collectArgs (toolName : String) (sig : List String)
    (resolvesGlobal : String → Bool) (args : String → JValue) :
    List String → List (String × PBVal) →
    Except PyExc (List (String × PBVal))
  | [], acc => .ok acc
  | p :: rest, acc =>
      if p = "params" then
        collectArgs toolName sig resolvesGlobal args rest
          (dictInsert acc p .selfDict)
      else if sig.contains p then
        if jIsNull (args p) then
          collectArgs toolName sig resolvesGlobal args rest acc
        else
          collectArgs toolName sig resolvesGlobal args rest
            (dictInsert acc p (.arg (args p)))
      else if p = "result" then .error (.nameError p)
      else if p == toolName || p == "call_filemaker_script" || resolvesGlobal p then
        collectArgs toolName sig resolvesGlobal args rest
          (dictInsert acc p (.pyObj p))
      else .error (.nameError p)

/-- The parameters of the generated function's signature, required first
(source line 257). -/
def sigParams (g : GeneratedFn) : List String :=
  g.sigRequired ++ g.sigOptional

/-- The value one collection line stores for a given name, if any: the
branch structure of `collectArgs` as a function of the name (`none` both for
a parameter whose argument is None and for a name whose line raises
instead of inserting). -/
def collectValue (toolName : String) (sig : List String)
    (resolvesGlobal : String → Bool) (args : String → JValue) (q : String) :
    Option PBVal :=
  if q = "params" then some .selfDict
  else if sig.contains q then
    if jIsNull (args q) then none else some (.arg (args q))
  else if q = "result" then none
  else if q == toolName || q == "call_filemaker_script" || resolvesGlobal q then
    some (.pyObj q)
  else none

/-- One invocation of the generated callable: evaluate the collection lines
and return the `params` mapping handed to call_filemaker_script. `args`
gives the value bound to each parameter; an omitted optional parameter is
bound to its default, Python None. -/
def runGeneratedBody (g : GeneratedFn) (resolvesGlobal : String → Bool)
    (args : String → JValue) : Except PyExc (List (String × PBVal)) :=
  collectArgs g.name (sigParams g) resolvesGlobal args g.collectNames []

/-- A Gradio input component: `gr.Textbox(label, placeholder)`,
`gr.Number(label, info)` or `gr.Checkbox(label, info)`. -/
inductive Widget : Type where
  | textbox : String → JValue → Widget
  | numberW : String → JValue → Widget
  | checkbox : String → JValue → Widget

/-- One `gr.Interface` form: tool name as title, the descriptor's
description, one input widget per property (the output is always a single
`gr.Textbox(label='Result')` and carries no information). -/
structure Form : Type where
  title : String
  description : JValue
  inputs : List Widget

/-- The widget chosen for one property (source lines 390-401): string →
textbox, number/integer → numeric, boolean → checkbox, anything else →
textbox. -/
def mkWidget (pname : String) (pinfo : List (String × JValue)) : Widget :=
  let pdesc := (jLookup pinfo "description").getD (.str "")
  match (jLookup pinfo "type").getD (.str "string") with
  | .str "string" => .textbox pname pdesc
  | .str "number" => .numberW pname pdesc
  | .str "integer" => .numberW pname pdesc
  | .str "boolean" => .checkbox pname pdesc
  | _ => .textbox pname pdesc

/-- The input-widget loop (source lines 385-404): one widget per property
whose info is a dict (others are skipped); note this loop does not repeat the
identifier check of the translator. -/
def widgetsOf (props : List (String × JValue)) : List Widget :=
  props.filterMap fun pv =>
    match pv.2 with
    | .obj pinfo => some (mkWidget pv.1 pinfo)
    | _ => none

/-- The `gr.Interface` construction for one tool (source lines 377-413);
construction of the external Gradio objects themselves is assumed not to
raise. -/
def mkForm (toolName : String) (td : JValue) : Form :=
  match td with
  | .obj tfs =>
      match jLookup tfs "function" with
      | some (.obj ffs) =>
          { title := toolName
            description := (jLookup ffs "description").getD (.str "")
            inputs :=
              match propertiesValueOf ffs with
              | .obj props => widgetsOf props
              | _ => [] }
      | _ => ⟨toolName, .str "", []⟩
  | _ => ⟨toolName, .str "", []⟩

/-- The assembled result of setup_gradio_interface: the status-only fallback
interface, a single form, or `gr.TabbedInterface(interfaces, tab_names)`. -/
inductive GInterface : Type where
  | fallback : GInterface
  | single : Form → GInterface
  | tabbed : List String → List Form → GInterface

/-- One pass of the tool-function loop of setup_gradio_interface (source
lines 348-369): skip a non-dict descriptor or one without a `function` key,
skip one the translator rejects, and otherwise store the translated function
under its tool name (a Python dict assignment, so a repeated name replaces
the earlier entry in place). -/
def setupStep (acc : List (String × GeneratedFn × JValue)) (td : JValue) :
    List (String × GeneratedFn × JValue) :=
  match td with
  | .obj tfs =>
      match jLookup tfs "function" with
      | none => acc
      | some _ =>
          match create_gradio_function td with
          | none => acc
          | some g => dictInsert acc g.name (g, td)
  | _ => acc

/-- The `tool_functions` dict after the loop over all descriptors. -/
def toolFunctionsOf (ds : List JValue) : List (String × GeneratedFn × JValue) :=
  ds.foldl setupStep []

/-- setup_gradio_interface (source lines 332-438): fallback when no
descriptors were retrieved, fallback when no tool function could be created,
a single form for exactly one, and a tabbed interface labeled by the tool
names for more than one. -/
def setup_gradio_interface (ds : List JValue) : GInterface :=
  if ds.isEmpty then .fallback
  else
    match toolFunctionsOf ds with
    | [] => .fallback
    | [x] => .single (mkForm x.1 x.2.2)
    | x :: y :: rest =>
        .tabbed ((x :: y :: rest).map fun z => z.1)
                ((x :: y :: rest).map fun z => mkForm z.1 z.2.2)

/-- The tab labels of an assembled interface (empty unless tabbed). -/
def tabLabelsOf : GInterface → List String
  | .tabbed ls _ => ls
  | _ => []

/-- The name value of a descriptor's function object, when the descriptor has
one: `None` stands for a missing name (`function.get('name')`). -/
def functionNameOf (d : JValue) : Option JValue :=
  match d with
  | .obj tfs =>
      match jLookup tfs "function" with
      | some (.obj ffs) => some ((jLookup ffs "name").getD .null)
      | _ => none
  | _ => none

/-- The descriptor's function name is missing (Python None), not a string, or
not a syntactically valid Python identifier (a reserved keyword also is not
one: `str.isidentifier` accepts it but the generated `def` is then a syntax
error). -/
def functionNameBad (d : JValue) : Bool :=
  match functionNameOf d with
  | some (.str s) => !(isPyIdentifier s) || pyKeywords.contains s
  | some _ => true
  | none => false

theorem jIsNull_iff (v : JValue) : jIsNull v = true ↔ v = .null := by
  cases v <;> simp [jIsNull]

/-- Membership in a dict after an assignment whose value agrees with every
value already stored at that key (the case of the `params` dict, where every
stored value is `args` at its key). -/
theorem dictInsert_mem_of_agree {α : Type} (p : String) (v0 : α) (k : String)
    (v : α) (acc : List (String × α))
    (hag : ∀ w : α, (p, w) ∈ acc → w = v0) :
    ((k, v) ∈ dictInsert acc p v0 ↔ ((k, v) ∈ acc ∨ (k = p ∧ v = v0))) := by
  induction acc with
  | nil => simp [dictInsert]
  | cons hd rest ih =>
      obtain ⟨k0, w0⟩ := hd
      have hagr : ∀ w : α, (p, w) ∈ rest → w = v0 := fun w hw =>
        hag w (List.mem_cons_of_mem _ hw)
      unfold dictInsert
      by_cases h0 : k0 = p
      · subst h0
        have hw : w0 = v0 := hag w0 (List.mem_cons_self _ _)
        subst hw
        rw [if_pos rfl]
        constructor
        · intro h
          exact Or.inl h
        · rintro (h | ⟨rfl, rfl⟩)
          · exact h
          · exact List.mem_cons_self _ _
      · rw [if_neg h0]
        simp only [List.mem_cons, ih hagr, Prod.mk.injEq]
        tauto

/-- One insertion step of the collection lines: when the processed name's
collection line stores a value agreed by `collectValue`, the
characterisation extends across that step. -/
theorem collectArgs_insert_aux (toolName : String) (sig : List String)
    (resolvesGlobal : String → Bool) (args : String → JValue) (p : String)
    (v0 : PBVal) (rest : List String) (acc m : List (String × PBVal))
    (hacc : ∀ (q : String) (w : PBVal), (q, w) ∈ acc →
        collectValue toolName sig resolvesGlobal args q = some w)
    (hcv : collectValue toolName sig resolvesGlobal args p = some v0)
    (hok : collectArgs toolName sig resolvesGlobal args rest
        (dictInsert acc p v0) = .ok m)
    (ih : ∀ acc2 m2 : List (String × PBVal),
        (∀ (q : String) (w : PBVal), (q, w) ∈ acc2 →
            collectValue toolName sig resolvesGlobal args q = some w) →
        collectArgs toolName sig resolvesGlobal args rest acc2 = .ok m2 →
        ∀ (k : String) (v : PBVal),
          ((k, v) ∈ m2 ↔ ((k, v) ∈ acc2
            ∨ (k ∈ rest ∧
                collectValue toolName sig resolvesGlobal args k = some v)))) :
    ∀ (k : String) (v : PBVal),
      ((k, v) ∈ m ↔ ((k, v) ∈ acc
        ∨ (k ∈ p :: rest ∧
            collectValue toolName sig resolvesGlobal args k = some v))) := by
  intro k v
  have hag : ∀ w2 : PBVal, (p, w2) ∈ acc → w2 = v0 := by
    intro w2 hw2
    have h2 := hacc p w2 hw2
    rw [hcv] at h2
    injection h2 with h3
    exact h3.symm
  have hacc2 : ∀ (q : String) (w : PBVal), (q, w) ∈ dictInsert acc p v0 →
      collectValue toolName sig resolvesGlobal args q = some w := by
    intro q w hw
    rcases (dictInsert_mem_of_agree p v0 q w acc hag).mp hw with h | ⟨hq, hv⟩
    · exact hacc q w h
    · subst hq; subst hv; exact hcv
  rw [ih (dictInsert acc p v0) m hacc2 hok k v]
  rw [dictInsert_mem_of_agree p v0 k v acc hag]
  constructor
  · rintro ((h | ⟨rfl, rfl⟩) | ⟨hk, hcvk⟩)
    · left; exact h
    · right; exact ⟨List.mem_cons_self _ _, hcv⟩
    · right; exact ⟨List.mem_cons_of_mem _ hk, hcvk⟩
  · rintro (h | ⟨hk, hcvk⟩)
    · left; left; exact h
    · rcases List.mem_cons.mp hk with rfl | hk2
      · left; right
        refine ⟨rfl, ?_⟩
        rw [hcv] at hcvk
        injection hcvk with h3
        exact h3.symm
      · right; exact ⟨hk2, hcvk⟩

/-- Characterisation of the `params` dict that the collection lines build:
starting from an accumulator whose bindings all agree with `collectValue`, a
successful run yields exactly the old bindings plus one binding per
processed name whose collection line stores a value. -/
theorem collectArgs_ok_mem (toolName : String) (sig : List String)
    (resolvesGlobal : String → Bool) (args : String → JValue) :
    ∀ (ps : List String) (acc m : List (String × PBVal)),
      (∀ (q : String) (w : PBVal), (q, w) ∈ acc →
          collectValue toolName sig resolvesGlobal args q = some w) →
      collectArgs toolName sig resolvesGlobal args ps acc = .ok m →
      ∀ (k : String) (v : PBVal),
        ((k, v) ∈ m ↔ ((k, v) ∈ acc
          ∨ (k ∈ ps ∧
              collectValue toolName sig resolvesGlobal args k = some v))) := by
  intro ps
  induction ps with
  | nil =>
      intro acc m hacc hok k v
      unfold collectArgs at hok
      injection hok with h
      subst h
      simp
  | cons p rest ih =>
      intro acc m hacc hok k v
      unfold collectArgs at hok
      by_cases hp : p = "params"
      · rw [if_pos hp] at hok
        subst hp
        exact collectArgs_insert_aux toolName sig resolvesGlobal args "params"
          .selfDict rest acc m hacc (by simp [collectValue]) hok ih k v
      · rw [if_neg hp] at hok
        by_cases hsig : sig.contains p
        · rw [if_pos hsig] at hok
          by_cases hnull : jIsNull (args p)
          · rw [if_pos hnull] at hok
            have hcvp : collectValue toolName sig resolvesGlobal args p
                = none := by
              unfold collectValue
              rw [if_neg hp, if_pos hsig, if_pos hnull]
            rw [ih acc m hacc hok k v]
            constructor
            · rintro (h | ⟨hk, hcvk⟩)
              · left; exact h
              · right; exact ⟨List.mem_cons_of_mem _ hk, hcvk⟩
            · rintro (h | ⟨hk, hcvk⟩)
              · left; exact h
              · rcases List.mem_cons.mp hk with rfl | hk2
                · rw [hcvp] at hcvk
                  exact Option.noConfusion hcvk
                · right; exact ⟨hk2, hcvk⟩
          · rw [if_neg hnull] at hok
            exact collectArgs_insert_aux toolName sig resolvesGlobal args p
              (.arg (args p)) rest acc m hacc
              (by unfold collectValue
                  rw [if_neg hp, if_pos hsig, if_neg hnull]) hok ih k v
        · rw [if_neg hsig] at hok
          by_cases hres : p = "result"
          · rw [if_pos hres] at hok
            cases hok
          · rw [if_neg hres] at hok
            by_cases hglob :
                (p == toolName || p == "call_filemaker_script"
                  || resolvesGlobal p) = true
            · rw [if_pos hglob] at hok
              exact collectArgs_insert_aux toolName sig resolvesGlobal args p
                (.pyObj p) rest acc m hacc
                (by simp only [collectValue, if_neg hp, hsig,
                    Bool.false_eq_true, if_false, if_neg hres, hglob, if_true])
                hok ih k v
            · rw [if_neg hglob] at hok
              cases hok

/-- C7 (amended): for the generated callable, an optional parameter not
named `params` that is left at its absent default (Python None) never
appears in the parameter mapping forwarded to the backend invocation; a
parameter named `params` is shadowed by the body's own accumulator
assignment, so whenever `params` is a collected name its key is inserted
unconditionally. -/
theorem omitted_optional_not_forwarded (g : GeneratedFn)
    (resolvesGlobal : String → Bool) (args : String → JValue)
    (m : List (String × PBVal))
    (hrun : runGeneratedBody g resolvesGlobal args = .ok m) :
    (∀ p : String, p ∈ g.sigOptional → p ≠ "params" → args p = .null →
        p ∉ m.map Prod.fst)
    ∧ ("params" ∈ g.collectNames → "params" ∈ m.map Prod.fst) := by
  have hmem := collectArgs_ok_mem g.name (sigParams g) resolvesGlobal args
    g.collectNames [] m (by intro q w h; cases h) hrun
  constructor
  · intro p hopt hpp hnull hk
    obtain ⟨⟨k2, v⟩, hkv, hfst⟩ := List.mem_map.mp hk
    have hk2 : k2 = p := hfst
    rw [hk2] at hkv
    rcases (hmem p v).mp hkv with h | ⟨_, hcv⟩
    · cases h
    · have hc : (sigParams g).contains p = true :=
        List.elem_eq_true_of_mem (List.mem_append.mpr (Or.inr hopt))
      have hjn : jIsNull (args p) = true := by rw [hnull]; rfl
      unfold collectValue at hcv
      rw [if_neg hpp, if_pos hc, if_pos hjn] at hcv
      exact Option.noConfusion hcv
  · intro hcol
    have h := (hmem "params" .selfDict).mpr
      (Or.inr ⟨hcol, by simp [collectValue]⟩)
    exact List.mem_map.mpr ⟨("params", .selfDict), h, rfl⟩

/-- A concrete descriptor whose optional parameter is literally named
`params`. -/
def dParamsC7 : JValue :=
  .obj [("function", .obj [
    ("name", .str "echo"),
    ("parameters", .obj [
      ("properties", .obj [
        ("msg", .obj [("type", .str "string")]),
        ("params", .obj [("type", .str "string")])]),
      ("required", .arr [.str "msg"])])])]

/-- C7 counterexample: the descriptor above translates, yet invoking the
generated callable with its optional parameter `params` omitted (bound to
the default None) forwards a mapping that does contain the key `params`:
the generated body's first statement `params = ...` shadows the parameter,
and the accumulator dict is never None, so line 282's test always passes
for that name. -/
theorem omitted_params_still_forwarded :
    create_gradio_function dParamsC7
      = some ⟨"echo", ["msg"], ["params"], ["msg", "params"], .str ""⟩
    ∧ runGeneratedBody ⟨"echo", ["msg"], ["params"], ["msg", "params"], .str ""⟩
        (fun _ => false) (fun n => if n = "msg" then .str "hi" else .null)
      = .ok [("msg", .arg (.str "hi")), ("params", .selfDict)]
    ∧ (fun n : String => if n = "msg" then JValue.str "hi" else .null) "params"
        = .null
    ∧ "params" ∈ List.map Prod.fst
        [("msg", PBVal.arg (.str "hi")), ("params", PBVal.selfDict)] :=
  ⟨rfl, rfl, rfl, by simp⟩

/-- Witness for C7's amended theorem at a concrete input: a callable with
one required and one omitted optional parameter (not named `params`)
forwards a mapping without the optional key. -/
theorem omitted_optional_not_forwarded_witness :
    runGeneratedBody ⟨"toolw", ["reqw"], ["optw"], ["reqw", "optw"], .str ""⟩
        (fun _ => false) (fun n => if n = "reqw" then .str "x" else .null)
      = .ok [("reqw", .arg (.str "x"))]
    ∧ (List.map Prod.fst [("reqw", PBVal.arg (.str "x"))]).count "optw" = 0 :=
  ⟨rfl,
   List.count_eq_zero.mpr
    ((omitted_optional_not_forwarded
        ⟨"toolw", ["reqw"], ["optw"], ["reqw", "optw"], .str ""⟩
        (fun _ => false) (fun n => if n = "reqw" then .str "x" else .null)
        [("reqw", .arg (.str "x"))] rfl).1 "optw" (by simp) (by decide) rfl)⟩

/-- C10 (amended): for every invocation of the generated callable that
completes, the forwarded mapping contains exactly the collected names whose
collection line stores a value: each parameter other than `params` appears
with its argument exactly when that argument is not None — uniformly for
required and optional parameters, so a required parameter (not named
`params`) explicitly passed None is silently omitted — while a collected
name `params` always appears bound to the accumulator dict itself, and a
collected non-parameter name resolving in the exec namespace appears bound
to that object. -/
theorem forwarded_exactly_non_none (g : GeneratedFn)
    (resolvesGlobal : String → Bool) (args : String → JValue)
    (m : List (String × PBVal))
    (hrun : runGeneratedBody g resolvesGlobal args = .ok m) :
    (∀ (k : String) (v : PBVal),
        ((k, v) ∈ m ↔ (k ∈ g.collectNames
          ∧ collectValue g.name (sigParams g) resolvesGlobal args k = some v)))
    ∧ (∀ k : String, k ∈ g.sigRequired → k ≠ "params" → args k = .null →
        k ∉ m.map Prod.fst) := by
  have hmem := collectArgs_ok_mem g.name (sigParams g) resolvesGlobal args
    g.collectNames [] m (by intro q w h; cases h) hrun
  constructor
  · intro k v
    rw [hmem k v]
    simp
  · intro k hreq hpp hnull hk
    obtain ⟨⟨k2, v⟩, hkv, hfst⟩ := List.mem_map.mp hk
    have hk2 : k2 = k := hfst
    rw [hk2] at hkv
    rcases (hmem k v).mp hkv with h | ⟨_, hcv⟩
    · cases h
    · have hc : (sigParams g).contains k = true :=
        List.elem_eq_true_of_mem (List.mem_append.mpr (Or.inl hreq))
      have hjn : jIsNull (args k) = true := by rw [hnull]; rfl
      unfold collectValue at hcv
      rw [if_neg hpp, if_pos hc, if_pos hjn] at hcv
      exact Option.noConfusion hcv

/-- A concrete descriptor whose single required parameter is literally named
`params`. -/
def dParamsC10 : JValue :=
  .obj [("function", .obj [
    ("name", .str "save"),
    ("parameters", .obj [
      ("properties", .obj [
        ("params", .obj [("type", .str "string")])]),
      ("required", .arr [.str "params"])])])]

/-- C10 counterexample: the descriptor above translates, and invoking the
generated callable with its required parameter `params` explicitly passed
None forwards a mapping that contains the key `params` anyway — bound to the
body's accumulator dict, not to the argument — so the mapping is not
"exactly those parameters whose argument value is not None". -/
theorem required_params_none_forwarded :
    create_gradio_function dParamsC10
      = some ⟨"save", ["params"], [], ["params"], .str ""⟩
    ∧ runGeneratedBody ⟨"save", ["params"], [], ["params"], .str ""⟩
        (fun _ => false) (fun _ => .null)
      = .ok [("params", .selfDict)]
    ∧ (fun _ : String => JValue.null) "params" = .null
    ∧ ("params", PBVal.selfDict) ∈ [("params", PBVal.selfDict)] :=
  ⟨rfl, rfl, rfl, by simp⟩

/-- Witness for C10's amended theorem at a concrete input: the forwarded
mapping holds exactly the required parameter that was passed a non-None
value. -/
theorem forwarded_exactly_non_none_witness :
    runGeneratedBody ⟨"toolz", ["reqz"], [], ["reqz"], .str ""⟩
        (fun _ => false) (fun n => if n = "reqz" then .str "y" else .null)
      = .ok [("reqz", .arg (.str "y"))]
    ∧ ("reqz", PBVal.arg (.str "y")) ∈ ([("reqz", PBVal.arg (.str "y"))] :
        List (String × PBVal)) :=
  ⟨rfl,
   ((forwarded_exactly_non_none ⟨"toolz", ["reqz"], [], ["reqz"], .str ""⟩
        (fun _ => false) (fun n => if n = "reqz" then .str "y" else .null)
        [("reqz", .arg (.str "y"))] rfl).1 "reqz" (.arg (.str "y"))).mpr
    ⟨by simp, rfl⟩⟩

/-- A descriptor with a bad function name is rejected by the translator. -/
theorem create_gradio_function_bad_name (d : JValue)
    (hbad : functionNameBad d = true) : create_gradio_function d = none := by
  cases d with
  | obj tfs =>
      cases hf : jLookup tfs "function" with
      | none => simp [create_gradio_function, hf]
      | some v =>
          cases v with
          | obj ffs =>
              cases hn : (jLookup ffs "name").getD .null with
              | str s =>
                  simp only [functionNameBad, functionNameOf, hf, hn] at hbad
                  by_cases hid : isPyIdentifier s
                  · have hkw : pyKeywords.contains s = true := by
                      rw [hid] at hbad
                      simpa using hbad
                    have hk : ∀ props : List (String × JValue),
                        hasKeyword (s :: collectNamesOf props) = true := by
                      intro props
                      have hmem : s ∈ pyKeywords := by simpa using hkw
                      simp [hasKeyword, List.any_cons]
                      exact Or.inl hmem
                    cases hp : propertiesValueOf ffs with
                    | obj props =>
                        cases hs : sigSplit (requiredValueOf ffs) props with
                        | error e =>
                            simp [create_gradio_function, hf, hn, hid, hp, hs]
                        | ok ro =>
                            obtain ⟨req, opt⟩ := ro
                            simp [create_gradio_function, hf, hn, hid, hp, hs,
                              hk props]
                    | null => simp [create_gradio_function, hf, hn, hid, hp]
                    | bool b => simp [create_gradio_function, hf, hn, hid, hp]
                    | num n => simp [create_gradio_function, hf, hn, hid, hp]
                    | str s2 => simp [create_gradio_function, hf, hn, hid, hp]
                    | arr xs => simp [create_gradio_function, hf, hn, hid, hp]
                  · simp [create_gradio_function, hf, hn, hid]
              | null => simp [create_gradio_function, hf, hn]
              | bool b => simp [create_gradio_function, hf, hn]
              | num n => simp [create_gradio_function, hf, hn]
              | arr xs => simp [create_gradio_function, hf, hn]
              | obj fs2 => simp [create_gradio_function, hf, hn]
          | null => simp [create_gradio_function, hf]
          | bool b => simp [create_gradio_function, hf]
          | num n => simp [create_gradio_function, hf]
          | str s => simp [create_gradio_function, hf]
          | arr xs => simp [create_gradio_function, hf]
  | null => rfl
  | bool b => rfl
  | num n => rfl
  | str s => rfl
  | arr xs => rfl

/-- A descriptor the translator rejects contributes nothing to the
tool-function loop. -/
theorem setupStep_of_create_none (d : JValue)
    (h : create_gradio_function d = none)
    (acc : List (String × GeneratedFn × JValue)) : setupStep acc d = acc := by
  cases d with
  | obj tfs =>
      cases hf : jLookup tfs "function" with
      | none => simp [setupStep, hf]
      | some v => simp [setupStep, hf, h]
  | null => rfl
  | bool b => rfl
  | num n => rfl
  | str s => rfl
  | arr xs => rfl

/-- C6: a descriptor whose function name is missing, not a string, or not a
syntactically valid identifier is rejected by the translator (None, no
exception), and no form for it appears in the assembled interface: assembly
of any descriptor list containing it equals assembly of that list with the
descriptor removed. -/
theorem invalid_name_no_form (d : JValue) (hbad : functionNameBad d = true) :
    create_gradio_function d = none
    ∧ ∀ ds1 ds2 : List JValue,
        setup_gradio_interface (ds1 ++ d :: ds2)
          = setup_gradio_interface (ds1 ++ ds2) := by
  have hnone := create_gradio_function_bad_name d hbad
  refine ⟨hnone, ?_⟩
  intro ds1 ds2
  have htf : toolFunctionsOf (ds1 ++ d :: ds2) = toolFunctionsOf (ds1 ++ ds2) := by
    unfold toolFunctionsOf
    rw [List.foldl_append, List.foldl_append, List.foldl_cons,
      setupStep_of_create_none d hnone]
  unfold setup_gradio_interface
  rw [htf]
  cases ds1 with
  | nil =>
      cases ds2 with
      | nil => simp [toolFunctionsOf]
      | cons a l => simp
  | cons a l => simp

/-- Witness for C6 at a concrete input: a descriptor whose name starts with a
digit is rejected and assembling with it equals assembling without it. -/
theorem invalid_name_no_form_witness :
    create_gradio_function (.obj [("function", .obj [("name", .str "9bad")])])
      = none
    ∧ setup_gradio_interface
        ([.obj [("function", .obj [("name", .str "a")])]]
          ++ .obj [("function", .obj [("name", .str "9bad")])] :: [])
      = setup_gradio_interface
        ([.obj [("function", .obj [("name", .str "a")])]] ++ []) :=
  ⟨(invalid_name_no_form (.obj [("function", .obj [("name", .str "9bad")])])
      (by decide)).1,
   (invalid_name_no_form (.obj [("function", .obj [("name", .str "9bad")])])
      (by decide)).2 [.obj [("function", .obj [("name", .str "a")])]] []⟩

/-- C1 (amended): the graceful-degradation ladder of setup_gradio_interface:
zero successfully created tool functions yield the fallback interface,
exactly one yields that form alone, and two or more yield a tabbed composite
with exactly one labeled tab per successfully created tool function, the
labels being those tool names. -/
theorem setup_interface_ladder (ds : List JValue) :
    (toolFunctionsOf ds = [] → setup_gradio_interface ds = .fallback)
    ∧ (∀ (n : String) (g : GeneratedFn) (d : JValue),
        toolFunctionsOf ds = [(n, g, d)] →
        setup_gradio_interface ds = .single (mkForm n d))
    ∧ (2 ≤ (toolFunctionsOf ds).length →
        setup_gradio_interface ds
          = .tabbed ((toolFunctionsOf ds).map fun z => z.1)
              ((toolFunctionsOf ds).map fun z => mkForm z.1 z.2.2)
        ∧ ((toolFunctionsOf ds).map fun z => z.1).length
            = (toolFunctionsOf ds).length) := by
  refine ⟨?_, ?_, ?_⟩
  · intro h
    unfold setup_gradio_interface
    cases ds with
    | nil => rfl
    | cons a l => simp [h]
  · intro n g d h
    unfold setup_gradio_interface
    cases ds with
    | nil => simp [toolFunctionsOf] at h
    | cons a l => simp [h]
  · intro h2
    refine ⟨?_, by simp⟩
    unfold setup_gradio_interface
    cases ds with
    | nil => simp [toolFunctionsOf] at h2
    | cons a l =>
        cases htf : toolFunctionsOf (a :: l) with
        | nil => rw [htf] at h2; simp at h2
        | cons x rest =>
            cases rest with
            | nil => rw [htf] at h2; simp at h2
            | cons y r2 => simp [htf]

/-- Witness for C1's amended ladder at a concrete input: two valid
descriptors yield a two-tab composite labeled by their tool names. -/
theorem setup_interface_ladder_witness :
    setup_gradio_interface
        [.obj [("function", .obj [("name", .str "a")])],
         .obj [("function", .obj [("name", .str "b")])]]
      = .tabbed ["a", "b"] [⟨"a", .str "", []⟩, ⟨"b", .str "", []⟩] :=
  ((setup_interface_ladder
      [.obj [("function", .obj [("name", .str "a")])],
       .obj [("function", .obj [("name", .str "b")])]]).2.2 (by decide)).1

/-- A concrete descriptor set for the C1 counterexample: two valid tools and
one descriptor whose name is not an identifier. -/
def dsC1 : List JValue :=
  [.obj [("function", .obj [("name", .str "a")])],
   .obj [("function", .obj [("name", .str "b")])],
   .obj [("function", .obj [("name", .str "bad name")])]]

/-- C1 counterexample: a set of three descriptors of which two translate; two
or more forms are built, and the tabbed composite carries one labeled tab per
successfully built form (two), strictly fewer than one per descriptor of the
set (three), contrary to the claim's tab-per-descriptor count. -/
theorem setup_tab_count_counterexample :
    dsC1.length = 3
    ∧ (toolFunctionsOf dsC1).length = 2
    ∧ setup_gradio_interface dsC1
        = .tabbed ["a", "b"] [⟨"a", .str "", []⟩, ⟨"b", .str "", []⟩]
    ∧ (tabLabelsOf (setup_gradio_interface dsC1)).length < dsC1.length :=
  ⟨rfl, rfl, rfl, by decide⟩

/-- Outcome of one `demo.launch` attempt on a port (source lines 469-486):
success, an OSError whose text marks the port busy ("Address already in
use" / "Cannot find empty port"), or another OSError (logged and skipped). -/
inductive LaunchOutcome : Type where
  | ok : LaunchOutcome
  | addrInUse : LaunchOutcome
  | otherOSError : String → LaunchOutcome

/-- Result of the port loop: the bound port, or process exit with a code. -/
inductive BindResult : Type where
  | bound : Nat → BindResult
  | exitCode : Nat → BindResult

/-- The fixed ascending port list `ports_to_try` (source line 464). -/
def ports_to_try : List Nat := [7860, 7861, 7862, 7863, 7864]

/-- The port loop of main (source lines 466-489): try each port in order,
break on success, continue on a busy port and also (after logging) on any
other OSError; the for-else clause runs only when no attempt broke, and calls
`sys.exit(1)`. -/
def tryPorts (beh : Nat → LaunchOutcome) : List Nat → BindResult
  | [] => .exitCode 1
  | p :: rest =>
      match beh p with
      | .ok => .bound p
      | .addrInUse => tryPorts beh rest
      | .otherOSError _ => tryPorts beh rest

/-- The server's port binding: the loop over the fixed list. -/
def bindServer (beh : Nat → LaunchOutcome) : BindResult :=
  tryPorts beh ports_to_try

/-- When the first N entries are busy and the next is free, the loop binds
the (N+1)st entry. -/
theorem tryPorts_first_free (beh : Nat → LaunchOutcome) :
    ∀ (l : List Nat) (N : Nat), N < l.length →
      (∀ i : Nat, i < N → beh (l.getD i 0) = .addrInUse) →
      beh (l.getD N 0) = .ok →
      tryPorts beh l = .bound (l.getD N 0) := by
  intro l
  induction l with
  | nil =>
      intro N hN
      simp at hN
  | cons p rest ih =>
      intro N hN hbusy hfree
      cases N with
      | zero =>
          simp only [List.getD_cons_zero] at hfree ⊢
          unfold tryPorts
          rw [hfree]
      | succ n =>
          have hb0 : beh p = .addrInUse := by
            have h := hbusy 0 (Nat.succ_pos n)
            simpa using h
          unfold tryPorts
          rw [hb0]
          have h := ih n (by simpa using hN)
            (fun i hi => by
              have h2 := hbusy (i + 1) (Nat.succ_lt_succ hi)
              simpa using h2)
            (by simpa using hfree)
          simpa using h

/-- When every entry is busy, the loop exhausts the list and exits 1. -/
theorem tryPorts_all_busy (beh : Nat → LaunchOutcome) :
    ∀ l : List Nat, (∀ p ∈ l, beh p = .addrInUse) →
      tryPorts beh l = .exitCode 1 := by
  intro l
  induction l with
  | nil => intro h; rfl
  | cons p rest ih =>
      intro h
      unfold tryPorts
      rw [h p (List.mem_cons_self _ _)]
      exact ih fun q hq => h q (List.mem_cons_of_mem _ hq)

/-- C8: port binding tries the fixed ascending list in order: when the first
N ports fail as busy and the (N+1)st is free, the server binds the (N+1)st
port; when every port of the list is busy, the process exits with code 1. -/
theorem port_binding_ladder (beh : Nat → LaunchOutcome) :
    (∀ N : Nat, N < ports_to_try.length →
        (∀ i : Nat, i < N → beh (ports_to_try.getD i 0) = .addrInUse) →
        beh (ports_to_try.getD N 0) = .ok →
        bindServer beh = .bound (ports_to_try.getD N 0))
    ∧ ((∀ p ∈ ports_to_try, beh p = .addrInUse) →
        bindServer beh = .exitCode 1) :=
  ⟨fun N hN hbusy hfree => tryPorts_first_free beh ports_to_try N hN hbusy hfree,
   fun h => tryPorts_all_busy beh ports_to_try h⟩

/-- Witness for C8 at concrete inputs: with 7860 and 7861 busy and 7862 free
the server binds 7862; with every port busy the process exits 1. -/
theorem port_binding_ladder_witness :
    bindServer (fun p => if p < 7862 then .addrInUse else .ok) = .bound 7862
    ∧ bindServer (fun _ => .addrInUse) = .exitCode 1 :=
  ⟨(port_binding_ladder (fun p => if p < 7862 then .addrInUse else .ok)).1 2
      (by decide)
      (fun i hi => by interval_cases i <;> rfl)
      rfl,
   (port_binding_ladder (fun _ => .addrInUse)).2 (fun p _ => rfl)⟩

/-- Program counter of one thread executing get_fm_token, at the granularity
of the lock protocol: acquire the lock for the cache check (the `with` of
source line 56); check the cache and release (lines 57-61); start the
authentication HTTP call — made with the lock released (lines 66-74); finish
that call; acquire the lock for the store (line 77); store the token and
release (lines 78-79); finished with a result. -/
inductive PC : Type where
  | acq1 : PC
  | check : PC
  | authStart : PC
  | authFinish : PC
  | acq2 : PC
  | store : PC
  | finished : Option String → PC

/-- One thread: its program counter and the token its own authentication call
produced (carried from the call to the store). -/
structure Thr : Type where
  pc : PC
  tok : Option String

/-- Global state of a two-thread interleaving of get_fm_token: the cache
(token and expiry), the mutual-exclusion lock (`none` free, else the holding
thread), both threads, and instrumentation: authentication calls in flight,
the running maximum of simultaneous in-flight calls, and the total count. -/
structure Sys : Type where
  cacheTok : Option String
  cacheExp : Int
  lock : Option Bool
  thr0 : Thr
  thr1 : Thr
  inFlight : Nat
  maxInFlight : Nat
  authCalls : Nat

def getThr (s : Sys) (i : Bool) : Thr := if i then s.thr1 else s.thr0

def setThr (s : Sys) (i : Bool) (t : Thr) : Sys :=
  if i then { s with thr1 := t } else { s with thr0 := t }

/-- Truthiness of the cached token value in this model. -/
def tokTruthy : Option String → Bool
  | none => false
  | some t => t != ""

/-- One scheduler step of thread `i`: an acquire blocks (no state change)
while the other thread holds the lock; the cache check under the lock either
returns the cached token or, on a miss, releases the lock and proceeds to
authenticate outside it; a failed authentication finishes with None (the
handled-exception paths of lines 83-94); a successful one re-acquires the
lock, stores the token with expiry now + 840 and finishes with it. -/
def stepThr (now : Int) (authRes : Bool → Option String) (s : Sys) (i : Bool) :
    Sys :=
  let t := getThr s i
  match t.pc with
  | .acq1 =>
      match s.lock with
      | none => setThr { s with lock := some i } i { t with pc := .check }
      | some _ => s
  | .check =>
      if tokTruthy s.cacheTok && decide (now < s.cacheExp) then
        setThr { s with lock := none } i { t with pc := .finished s.cacheTok }
      else
        setThr { s with lock := none } i { t with pc := .authStart }
  | .authStart =>
      setThr { s with inFlight := s.inFlight + 1,
                      maxInFlight := max s.maxInFlight (s.inFlight + 1),
                      authCalls := s.authCalls + 1 } i { t with pc := .authFinish }
  | .authFinish =>
      match authRes i with
      | some tok =>
          setThr { s with inFlight := s.inFlight - 1 } i
            { t with pc := .acq2, tok := some tok }
      | none =>
          setThr { s with inFlight := s.inFlight - 1 } i
            { t with pc := .finished none }
  | .acq2 =>
      match s.lock with
      | none => setThr { s with lock := some i } i { t with pc := .store }
      | some _ => s
  | .store =>
      setThr { s with cacheTok := t.tok, cacheExp := now + 14 * 60,
                      lock := none } i { t with pc := .finished t.tok }
  | .finished _ => s

/-- Run a schedule (a list of thread choices) from a state. -/
def runSched (now : Int) (authRes : Bool → Option String) :
    List Bool → Sys → Sys
  | [], s => s
  | i :: rest, s => runSched now authRes rest (stepThr now authRes s i)

/-- The initial state: empty cache (one cache-miss window), free lock, both
threads about to enter get_fm_token. -/
def initSys : Sys :=
  { cacheTok := none, cacheExp := 0, lock := none,
    thr0 := ⟨.acq1, none⟩, thr1 := ⟨.acq1, none⟩,
    inFlight := 0, maxInFlight := 0, authCalls := 0 }

/-- A thread is inside a lock-protected section: the cache check or the
cache store. -/
def inCS (t : Thr) : Bool :=
  match t.pc with
  | .check => true
  | .store => true
  | _ => false

def holdsLock (l : Option Bool) (i : Bool) : Bool :=
  match l with
  | some j => j == i
  | none => false

/-- The lock invariant: a thread inside a lock-protected section holds the
lock. -/
def lockInv (s : Sys) : Bool :=
  (!(inCS s.thr0) || holdsLock s.lock false)
  && (!(inCS s.thr1) || holdsLock s.lock true)

/-- Unpacking the lock invariant. -/
theorem lockInv_parts (s : Sys) (h : lockInv s = true) :
    (inCS s.thr0 = true → holdsLock s.lock false = true)
    ∧ (inCS s.thr1 = true → holdsLock s.lock true = true) := by
  simp only [lockInv, Bool.and_eq_true, Bool.or_eq_true] at h
  obtain ⟨h0, h1⟩ := h
  constructor
  · intro hc
    rcases h0 with h0 | h0
    · rw [hc] at h0; simp at h0
    · exact h0
  · intro hc
    rcases h1 with h1 | h1
    · rw [hc] at h1; simp at h1
    · exact h1

theorem lock_eq_of_holds (l : Option Bool) (i : Bool)
    (h : holdsLock l i = true) : l = some i := by
  cases l with
  | none => simp [holdsLock] at h
  | some j => cases j <;> cases i <;> simp_all [holdsLock]

/-- Which threads are outside the critical sections, by lock value. -/
theorem inCS_false_of_lock (s : Sys) (h : lockInv s = true) :
    (s.lock = none → inCS s.thr0 = false ∧ inCS s.thr1 = false)
    ∧ (s.lock = some false → inCS s.thr1 = false)
    ∧ (s.lock = some true → inCS s.thr0 = false) := by
  obtain ⟨h0, h1⟩ := lockInv_parts s h
  refine ⟨fun hl => ⟨?_, ?_⟩, fun hl => ?_, fun hl => ?_⟩
  · cases hc : inCS s.thr0 with
    | false => rfl
    | true => have := h0 hc; rw [hl] at this; simp [holdsLock] at this
  · cases hc : inCS s.thr1 with
    | false => rfl
    | true => have := h1 hc; rw [hl] at this; simp [holdsLock] at this
  · cases hc : inCS s.thr1 with
    | false => rfl
    | true => have := h1 hc; rw [hl] at this; simp [holdsLock] at this
  · cases hc : inCS s.thr0 with
    | false => rfl
    | true => have := h0 hc; rw [hl] at this; simp [holdsLock] at this

/-- The lock invariant is preserved by every scheduler step. -/
theorem lockInv_step (now : Int) (authRes : Bool → Option String) (s : Sys)
    (i : Bool) (h : lockInv s = true) :
    lockInv (stepThr now authRes s i) = true := by
  cases i with
  | false =>
      cases hpc : s.thr0.pc with
      | acq1 =>
          cases hlk : s.lock with
          | none =>
              have ht1 := ((inCS_false_of_lock s h).1 hlk).2
              simp only [inCS] at ht1
              simp [stepThr, getThr, setThr, hpc, hlk, lockInv, inCS,
                holdsLock, ht1]
          | some j =>
              simpa [stepThr, getThr, hpc, hlk] using h
      | check =>
          have hl := (lockInv_parts s h).1 (by simp [inCS, hpc])
          have hlk := lock_eq_of_holds s.lock false hl
          have ht1 := (inCS_false_of_lock s h).2.1 hlk
          simp only [inCS] at ht1
          simp only [stepThr, getThr, hpc, Bool.false_eq_true, if_false]
          split
          · simp [setThr, lockInv, inCS, holdsLock, ht1]
          · simp [setThr, lockInv, inCS, holdsLock, ht1]
      | authStart =>
          simp only [lockInv, Bool.and_eq_true] at h
          obtain ⟨h0, h1⟩ := h
          simp only [lockInv, Bool.and_eq_true]
          constructor
          · simp [stepThr, getThr, setThr, hpc, inCS]
          · simpa [stepThr, getThr, setThr, hpc, inCS] using h1
      | authFinish =>
          simp only [lockInv, Bool.and_eq_true] at h
          obtain ⟨h0, h1⟩ := h
          cases hres : authRes false with
          | some tok =>
              simp only [lockInv, Bool.and_eq_true]
              constructor
              · simp [stepThr, getThr, setThr, hpc, hres, inCS]
              · simpa [stepThr, getThr, setThr, hpc, hres, inCS] using h1
          | none =>
              simp only [lockInv, Bool.and_eq_true]
              constructor
              · simp [stepThr, getThr, setThr, hpc, hres, inCS]
              · simpa [stepThr, getThr, setThr, hpc, hres, inCS] using h1
      | acq2 =>
          cases hlk : s.lock with
          | none =>
              have ht1 := ((inCS_false_of_lock s h).1 hlk).2
              simp only [inCS] at ht1
              simp [stepThr, getThr, setThr, hpc, hlk, lockInv, inCS,
                holdsLock, ht1]
          | some j =>
              simpa [stepThr, getThr, hpc, hlk] using h
      | store =>
          have hl := (lockInv_parts s h).1 (by simp [inCS, hpc])
          have hlk := lock_eq_of_holds s.lock false hl
          have ht1 := (inCS_false_of_lock s h).2.1 hlk
          simp only [inCS] at ht1
          simp [stepThr, getThr, setThr, hpc, lockInv, inCS, holdsLock, ht1]
      | finished r =>
          simpa [stepThr, getThr, hpc] using h
  | true =>
      cases hpc : s.thr1.pc with
      | acq1 =>
          cases hlk : s.lock with
          | none =>
              have ht0 := ((inCS_false_of_lock s h).1 hlk).1
              simp only [inCS] at ht0
              simp [stepThr, getThr, setThr, hpc, hlk, lockInv, inCS,
                holdsLock, ht0]
          | some j =>
              simpa [stepThr, getThr, hpc, hlk] using h
      | check =>
          have hl := (lockInv_parts s h).2 (by simp [inCS, hpc])
          have hlk := lock_eq_of_holds s.lock true hl
          have ht0 := (inCS_false_of_lock s h).2.2 hlk
          simp only [inCS] at ht0
          simp only [stepThr, getThr, hpc, if_true]
          split
          · simp [setThr, lockInv, inCS, holdsLock, ht0]
          · simp [setThr, lockInv, inCS, holdsLock, ht0]
      | authStart =>
          simp only [lockInv, Bool.and_eq_true] at h
          obtain ⟨h0, h1⟩ := h
          simp only [lockInv, Bool.and_eq_true]
          constructor
          · simpa [stepThr, getThr, setThr, hpc, inCS] using h0
          · simp [stepThr, getThr, setThr, hpc, inCS]
      | authFinish =>
          simp only [lockInv, Bool.and_eq_true] at h
          obtain ⟨h0, h1⟩ := h
          cases hres : authRes true with
          | some tok =>
              simp only [lockInv, Bool.and_eq_true]
              constructor
              · simpa [stepThr, getThr, setThr, hpc, hres, inCS] using h0
              · simp [stepThr, getThr, setThr, hpc, hres, inCS]
          | none =>
              simp only [lockInv, Bool.and_eq_true]
              constructor
              · simpa [stepThr, getThr, setThr, hpc, hres, inCS] using h0
              · simp [stepThr, getThr, setThr, hpc, hres, inCS]
      | acq2 =>
          cases hlk : s.lock with
          | none =>
              have ht0 := ((inCS_false_of_lock s h).1 hlk).1
              simp only [inCS] at ht0
              simp [stepThr, getThr, setThr, hpc, hlk, lockInv, inCS,
                holdsLock, ht0]
          | some j =>
              simpa [stepThr, getThr, hpc, hlk] using h
      | store =>
          have hl := (lockInv_parts s h).2 (by simp [inCS, hpc])
          have hlk := lock_eq_of_holds s.lock true hl
          have ht0 := (inCS_false_of_lock s h).2.2 hlk
          simp only [inCS] at ht0
          simp [stepThr, getThr, setThr, hpc, lockInv, inCS, holdsLock, ht0]
      | finished r =>
          simpa [stepThr, getThr, hpc] using h

/-- With the invariant, the two threads are never both inside the
lock-protected sections. -/
theorem not_both_inCS (s : Sys) (h : lockInv s = true) :
    (inCS s.thr0 && inCS s.thr1) = false := by
  cases h0 : inCS s.thr0 with
  | false => simp
  | true =>
      cases h1 : inCS s.thr1 with
      | false => simp
      | true =>
          exfalso
          obtain ⟨hp0, hp1⟩ := lockInv_parts s h
          have hl0 := lock_eq_of_holds s.lock false (hp0 h0)
          have hl1 := lock_eq_of_holds s.lock true (hp1 h1)
          rw [hl0] at hl1
          simp at hl1

/-- C9 (amended): in the two-thread interleaving model of get_fm_token, the
mutual-exclusion lock guarantees mutually exclusive access to the token
cache — under every schedule, no reachable state has both threads inside a
lock-protected section (the cache check or the cache store) — but it does
not serialize the authentication call itself, which runs with the lock
released (see the counterexample of two simultaneous in-flight calls). -/
theorem lock_mutual_exclusion (now : Int) (authRes : Bool → Option String)
    (sched : List Bool) :
    lockInv (runSched now authRes sched initSys) = true
    ∧ (inCS (runSched now authRes sched initSys).thr0
        && inCS (runSched now authRes sched initSys).thr1) = false := by
  have hrun : ∀ (l : List Bool) (s : Sys), lockInv s = true →
      lockInv (runSched now authRes l s) = true := by
    intro l
    induction l with
    | nil => intro s hs; exact hs
    | cons i rest ih =>
        intro s hs
        exact ih _ (lockInv_step now authRes s i hs)
  have hinv := hrun sched initSys rfl
  exact ⟨hinv, not_both_inCS _ hinv⟩

/-- C9 counterexample: from the empty cache (a single cache-miss window), the
schedule on which both threads pass the lock-protected cache check before
either starts its HTTP call reaches two authentication calls in flight at
once, with two calls total — the lock is released (source line 61) before
the request of line 66, so it does not bound in-flight authentications to
one per cache-miss window. -/
theorem concurrent_auth_counterexample :
    1 < (runSched 0 (fun _ => some "tok")
        [false, false, true, true, false, true] initSys).maxInFlight
    ∧ (runSched 0 (fun _ => some "tok")
        [false, false, true, true, false, true] initSys).authCalls = 2 := by
  constructor
  · decide
  · decide
